import Mathlib

/-!
Shallow embedding of the Seikatsu task-list component
(`src/components/HeaderBar.tsx`, the `Tasks` component).

The component keeps four pieces of state that matter to its logic:
the ordered task list, the text currently in the input field
(`newTask`), the currently selected priority tier, and a per-task map
of swipe offsets (`swipeAnimations`, a JS record from task id to an
`Animated.Value`; we model an `Animated.Value` by the rational number
it currently holds, and a spring animation by the resting value it
settles at — animation playback is cosmetic).

Numeric gesture inputs (translation and velocity) are JS numbers; we
model them as rationals.  `Date.now()` is modelled as a natural-number
millisecond timestamp passed to `addTask` explicitly, and
`Date.now().toString()` as `Nat.repr`.

Animation-only state (`slideAnim`, `showPrioritySelector`) drives no
logic the spec talks about and is omitted.
-/

namespace Seikatsu

/-- Whitespace characters of JavaScript (ECMA-262 `WhiteSpace` and
`LineTerminator`: tab, LF, VT, FF, CR, space, NBSP, the Unicode `Zs`
space separators, LS, PS, and the BOM).  These are the characters
`String.prototype.trim` removes. -/
def jsWhitespace (c : Char) : Bool :=
  c = '\t' ∨ c = '\n' ∨ c.val = 0x0b ∨ c.val = 0x0c ∨ c = '\r' ∨ c = ' ' ∨
    c.val = 0xa0 ∨ c.val = 0x1680 ∨ (0x2000 ≤ c.val ∧ c.val ≤ 0x200a) ∨
    c.val = 0x2028 ∨ c.val = 0x2029 ∨ c.val = 0x202f ∨ c.val = 0x205f ∨
    c.val = 0x3000 ∨ c.val = 0xfeff

/-- JavaScript `String.prototype.trim`: removes `jsWhitespace` characters
from both ends of the string. -/
def jsTrim (s : String) : String :=
  ⟨((s.data.dropWhile jsWhitespace).reverse.dropWhile jsWhitespace).reverse⟩

/-- The TS type of `priority` is the literal union `1 | 2 | 3 | 4`. -/
abbrev Priority := { n : ℕ // 1 ≤ n ∧ n ≤ 4 }

/-- The `Task` interface of the source: id, title, completed flag, priority. -/
structure Task where
  id : String
  title : String
  completed : Bool
  priority : Priority
deriving DecidableEq, Repr

/-- The label field of `priorityConfig`, keyed by tier. -/
def priorityConfigLabel (p : Priority) : String :=
  if p.val = 1 then "High Priority"
  else if p.val = 2 then "Medium Priority"
  else if p.val = 3 then "Average Priority"
  else "Low Priority"

/-- The local state of the `Tasks` component that carries its logic:
`tasks`, `newTask`, `selectedPriority`, and the `swipeAnimations`
record (an insertion-ordered association list, as JS records are). -/
structure TasksState where
  tasks : List Task
  newTask : String
  selectedPriority : Priority
  swipeAnimations : List (String × ℚ)
deriving DecidableEq, Repr

/-- The initial `useState` task list of the component. -/
def initialTasks : List Task :=
  [ { id := "1", title := "Finish workout", completed := false, priority := ⟨1, by decide⟩ },
    { id := "2", title := "Read 10 pages", completed := true, priority := ⟨3, by decide⟩ },
    { id := "3", title := "Work on Seikatsu UI", completed := false, priority := ⟨2, by decide⟩ } ]

/-- The component's initial state: the seed tasks, empty input,
`selectedPriority = 3`, no swipe entries. -/
def initState : TasksState :=
  { tasks := initialTasks
    newTask := ""
    selectedPriority := ⟨3, by decide⟩
    swipeAnimations := [] }

/-- Lookup of `swipeAnimations[taskId]` (the value currently held by the
`Animated.Value` stored under `taskId`, or `none` if absent). -/
def lookupSwipe (m : List (String × ℚ)) (taskId : String) : Option ℚ :=
  (m.find? (fun p => p.1 == taskId)).map (fun p => p.2)

/-- In-place update of the `Animated.Value` stored under `taskId`
(`swipeAnim.setValue` mutates the object held in the record, so keys
and their order are unchanged). -/
def setSwipeValue (m : List (String × ℚ)) (taskId : String) (v : ℚ) : List (String × ℚ) :=
  m.map (fun p => if p.1 == taskId then (p.1, v) else p)

/-- `getSwipeAnimation(taskId)`: if the record has no entry it stores a
fresh `Animated.Value(0)` under `taskId` (new JS record key, appended in
insertion order) but returns a *different* fresh `Animated.Value(0)` —
mutations of the returned object are then lost.  The `Bool` records
whether the returned value aliases the stored one (`true`) or is the
throwaway fresh value (`false`). -/
def getSwipeAnimation (s : TasksState) (taskId : String) : TasksState × Bool :=
  match lookupSwipe s.swipeAnimations taskId with
  | none => ({ s with swipeAnimations := s.swipeAnimations ++ [(taskId, 0)] }, false)
  | some _ => (s, true)

/-- `handleSwipe(taskId, translationX)`: clamps the drag translation into
`[-80, 0]` ("Only allow left swipe") and writes it into the task's
`Animated.Value`.  When `getSwipeAnimation` returned the throwaway fresh
value, the `setValue` call lands on that discarded object and the stored
entry keeps its value `0`. -/
def handleSwipe (s : TasksState) (taskId : String) (translationX : ℚ) : TasksState :=
  let res := getSwipeAnimation s taskId
  let clampedTranslation := min 0 (max (-80) translationX)
  if res.2 then
    { res.1 with swipeAnimations := setSwipeValue res.1.swipeAnimations taskId clampedTranslation }
  else res.1

/-- The resting position `handleSwipeEnd` springs the row to:
open (`-80`) when `translationX < -40 || velocityX < -500`, else
closed (`0`).  (`shouldOpen` / `targetValue` of the source.) -/
def swipeEndTarget (translationX velocityX : ℚ) : ℚ :=
  if translationX < -40 ∨ velocityX < -500 then -80 else 0

/-- `handleSwipeEnd(taskId, translationX, velocityX)`: springs the task's
`Animated.Value` to the resting position `swipeEndTarget`; modelled as the
value having settled there.  As in `handleSwipe`, a throwaway fresh value
absorbs the spring when the entry was absent. -/
def handleSwipeEnd (s : TasksState) (taskId : String) (translationX velocityX : ℚ) :
    TasksState :=
  let res := getSwipeAnimation s taskId
  let targetValue := swipeEndTarget translationX velocityX
  if res.2 then
    { res.1 with swipeAnimations := setSwipeValue res.1.swipeAnimations taskId targetValue }
  else res.1

/-- `closeSwipe(taskId)`: springs the task's swipe offset back to `0`. -/
def closeSwipe (s : TasksState) (taskId : String) : TasksState :=
  let res := getSwipeAnimation s taskId
  if res.2 then
    { res.1 with swipeAnimations := setSwipeValue res.1.swipeAnimations taskId 0 }
  else res.1

/-- `deleteTask(id)`: `tasks.filter(task => task.id !== id)` plus removal
of the `swipeAnimations` key `id` (the destructuring
`const (removed, ...rest) = prev` drops that key, keeping the others in
order). -/
def deleteTask (s : TasksState) (id : String) : TasksState :=
  { s with
    tasks := s.tasks.filter (fun task => task.id != id)
    swipeAnimations := s.swipeAnimations.filter (fun p => p.1 != id) }

/-- `toggleTask(id)`: maps over the list, flipping `completed` on the
task(s) whose id matches. -/
def toggleTask (s : TasksState) (id : String) : TasksState :=
  { s with
    tasks := s.tasks.map (fun task =>
      if task.id == id then { task with completed := !task.completed } else task) }

/-- `addTask()`: returns unchanged when `newTask.trim()` is empty;
otherwise appends a task with id `Date.now().toString()` (the `now`
argument models `Date.now()`), the *untrimmed* `newTask` as title,
`completed = false` and the selected priority, then clears the input and
resets the selected priority to `3`. -/
def addTask (s : TasksState) (now : ℕ) : TasksState :=
  if jsTrim s.newTask = "" then s
  else
    { s with
      tasks := s.tasks ++
        [ { id := Nat.repr now
            title := s.newTask
            completed := false
            priority := s.selectedPriority } ]
      newTask := ""
      selectedPriority := ⟨3, by decide⟩ }

/-- `setNewTask` (the `onChangeText` handler of the input field). -/
def setNewTask (s : TasksState) (text : String) : TasksState :=
  { s with newTask := text }

/-- `handlePrioritySelect(priority)`. -/
def handlePrioritySelect (s : TasksState) (p : Priority) : TasksState :=
  { s with selectedPriority := p }

/-- User-level events the component handles, for reachability statements.
`add now` models pressing "Create Task" at millisecond timestamp `now`. -/
inductive Op where
  | setNewTask (text : String)
  | handlePrioritySelect (p : Priority)
  | add (now : ℕ)
  | toggle (id : String)
  | delete (id : String)
  | swipe (taskId : String) (translationX : ℚ)
  | swipeEnd (taskId : String) (translationX velocityX : ℚ)
  | close (taskId : String)
deriving Repr

/-- Dispatch one event to its handler. -/
def applyOp (s : TasksState) : Op → TasksState
  | Op.setNewTask text => setNewTask s text
  | Op.handlePrioritySelect p => handlePrioritySelect s p
  | Op.add now => addTask s now
  | Op.toggle id => toggleTask s id
  | Op.delete id => deleteTask s id
  | Op.swipe taskId tx => handleSwipe s taskId tx
  | Op.swipeEnd taskId tx vx => handleSwipeEnd s taskId tx vx
  | Op.close taskId => closeSwipe s taskId

/-- Run a sequence of events from a state. -/
def runOps (s : TasksState) (ops : List Op) : TasksState :=
  ops.foldl applyOp s

/-- The millisecond timestamps of the `add` events of a trace, in order. -/
def addTimes : List Op → List ℕ
  | [] => []
  | Op.add now :: rest => now :: addTimes rest
  | _ :: rest => addTimes rest

/-! ### Helper lemmas about the swipe-offset record -/

theorem lookupSwipe_setSwipeValue_self (m : List (String × ℚ)) (k : String) (v q : ℚ)
    (h : lookupSwipe m k = some q) :
    lookupSwipe (setSwipeValue m k v) k = some v := by
  induction m with
  | nil => simp [lookupSwipe] at h
  | cons p m ih =>
    simp only [lookupSwipe, setSwipeValue, List.map_cons] at h ⊢
    rw [List.find?_cons] at h
    by_cases hp : p.1 == k
    · rw [if_pos hp, List.find?_cons]
      simp only [hp]
      rfl
    · rw [if_neg hp, List.find?_cons]
      simp only [Bool.not_eq_true] at hp
      simp only [hp] at h ⊢
      exact ih h

theorem lookupSwipe_append_fresh (m : List (String × ℚ)) (k : String)
    (h : lookupSwipe m k = none) :
    lookupSwipe (m ++ [(k, (0 : ℚ))]) k = some 0 := by
  simp only [lookupSwipe, Option.map_eq_none'] at h
  simp [lookupSwipe, List.find?_append, h]

theorem getSwipeAnimation_present (s : TasksState) (taskId : String) (q : ℚ)
    (h : lookupSwipe s.swipeAnimations taskId = some q) :
    getSwipeAnimation s taskId = (s, true) := by
  unfold getSwipeAnimation
  rw [h]

theorem getSwipeAnimation_absent (s : TasksState) (taskId : String)
    (h : lookupSwipe s.swipeAnimations taskId = none) :
    getSwipeAnimation s taskId =
      ({ s with swipeAnimations := s.swipeAnimations ++ [(taskId, 0)] }, false) := by
  unfold getSwipeAnimation
  rw [h]

/-! ### C1 and C2: the swipe gesture handlers -/

/-- C1: `handleSwipeEnd` (the spec's `resolveSwipeEnd`) leaves the row's
swipe offset at the open resting position `-80` if and only if
`translationX < -40` or `velocityX < -500`, and at the closed resting
position `0` otherwise (stated for a row whose swipe entry exists, which
holds for every row that has been rendered). -/
theorem handleSwipeEnd_open_iff (s : TasksState) (taskId : String) (tx vx q : ℚ)
    (h : lookupSwipe s.swipeAnimations taskId = some q) :
    (lookupSwipe (handleSwipeEnd s taskId tx vx).swipeAnimations taskId = some (-80) ↔
      tx < -40 ∨ vx < -500) ∧
    (lookupSwipe (handleSwipeEnd s taskId tx vx).swipeAnimations taskId = some 0 ↔
      ¬ (tx < -40 ∨ vx < -500)) := by
  have hset : lookupSwipe (handleSwipeEnd s taskId tx vx).swipeAnimations taskId =
      some (swipeEndTarget tx vx) := by
    simp only [handleSwipeEnd, getSwipeAnimation_present s taskId q h, if_true]
    exact lookupSwipe_setSwipeValue_self _ _ _ _ h
  rw [hset]
  by_cases hc : tx < -40 ∨ vx < -500
  · simp [swipeEndTarget, hc]
  · simp only [swipeEndTarget, if_neg hc]
    norm_num [hc]

/-- Witness for C1 at the spec's three concrete inputs. -/
theorem handleSwipeEnd_open_iff_witness :
    lookupSwipe (handleSwipeEnd { initState with swipeAnimations := [("1", 0)] }
        "1" (-50) 0).swipeAnimations "1" = some (-80) ∧
    lookupSwipe (handleSwipeEnd { initState with swipeAnimations := [("1", 0)] }
        "1" (-10) (-600)).swipeAnimations "1" = some (-80) ∧
    lookupSwipe (handleSwipeEnd { initState with swipeAnimations := [("1", 0)] }
        "1" (-10) 0).swipeAnimations "1" = some 0 :=
  ⟨(handleSwipeEnd_open_iff _ "1" (-50) 0 0 (by decide)).1.mpr (by decide),
   (handleSwipeEnd_open_iff _ "1" (-10) (-600) 0 (by decide)).1.mpr (by decide),
   (handleSwipeEnd_open_iff _ "1" (-10) 0 0 (by decide)).2.mpr (by decide)⟩

/-- C2: `handleSwipe` (the spec's `updateSwipeOffset`) always stores an
offset inside `[-80, 0]`; for a row whose swipe entry exists the stored
offset is exactly `min 0 (max (-80) translationX)`, so a rightward
(nonnegative) input clamps to `0` and a leftward input at or beyond
`-80` clamps to `-80`. -/
theorem handleSwipe_clamps (s : TasksState) (taskId : String) (tx q : ℚ)
    (h : lookupSwipe s.swipeAnimations taskId = some q) :
    lookupSwipe (handleSwipe s taskId tx).swipeAnimations taskId =
      some (min 0 (max (-80) tx)) ∧
    (-80 ≤ min (0 : ℚ) (max (-80) tx) ∧ min (0 : ℚ) (max (-80) tx) ≤ 0) ∧
    (0 ≤ tx → min (0 : ℚ) (max (-80) tx) = 0) ∧
    (tx ≤ -80 → min (0 : ℚ) (max (-80) tx) = -80) := by
  refine ⟨?_, ⟨le_min (by norm_num) (le_max_left _ _), min_le_left _ _⟩, ?_, ?_⟩
  · simp only [handleSwipe, getSwipeAnimation_present s taskId q h, if_true]
    exact lookupSwipe_setSwipeValue_self _ _ _ _ h
  · intro ht
    rw [min_eq_left (le_trans ht (le_max_right _ _))]
  · intro ht
    rw [max_eq_left ht, min_eq_right (by norm_num)]

/-- Witness for C2 at a rightward input, an in-range input, and an input
beyond the reveal distance. -/
theorem handleSwipe_clamps_witness :
    lookupSwipe (handleSwipe { initState with swipeAnimations := [("1", 0)] }
        "1" 30).swipeAnimations "1" = some 0 ∧
    lookupSwipe (handleSwipe { initState with swipeAnimations := [("1", 0)] }
        "1" (-200)).swipeAnimations "1" = some (-80) ∧
    lookupSwipe (handleSwipe { initState with swipeAnimations := [("1", 0)] }
        "1" (-35)).swipeAnimations "1" = some (-35) := by
  refine ⟨?_, ?_, ?_⟩
  · have h := handleSwipe_clamps { initState with swipeAnimations := [("1", 0)] }
      "1" 30 0 (by decide)
    rw [h.1, h.2.2.1 (by decide)]
  · have h := handleSwipe_clamps { initState with swipeAnimations := [("1", 0)] }
      "1" (-200) 0 (by decide)
    rw [h.1, h.2.2.2 (by decide)]
  · have h := handleSwipe_clamps { initState with swipeAnimations := [("1", 0)] }
      "1" (-35) 0 (by decide)
    rw [h.1, max_eq_right (show (-80 : ℚ) ≤ -35 by norm_num),
      min_eq_right (show (-35 : ℚ) ≤ 0 by norm_num)]

/-! ### C3, C4, C10: `addTask` -/

/-- C3: when the input title is empty or whitespace-only after trimming,
`addTask` is a no-op — the whole state (in particular the task list, its
length and every element) is unchanged and no task is created. -/
theorem addTask_blank_noop (s : TasksState) (now : ℕ) (h : jsTrim s.newTask = "") :
    addTask s now = s ∧ (addTask s now).tasks.length = s.tasks.length := by
  have hs : addTask s now = s := by simp [addTask, h]
  exact ⟨hs, by rw [hs]⟩

/-- Witness for C3 on a whitespace-only input. -/
theorem addTask_blank_noop_witness :
    addTask { initState with newTask := "   " } 5 = { initState with newTask := "   " } ∧
    (addTask { initState with newTask := "   " } 5).tasks.length =
      ({ initState with newTask := "   " } : TasksState).tasks.length :=
  addTask_blank_noop { initState with newTask := "   " } 5 (by decide)

/-- C4: when the trimmed title is non-empty, `addTask` appends exactly one
task at the end of the list (existing tasks keep their positions and
values), with `completed = false` and the selected priority; afterwards
the input is cleared and the selected priority is reset to the default
tier `3`, whose `priorityConfig` label is "Average Priority". -/
theorem addTask_appends (s : TasksState) (now : ℕ) (h : jsTrim s.newTask ≠ "") :
    (addTask s now).tasks =
      s.tasks ++ [{ id := Nat.repr now, title := s.newTask, completed := false,
                    priority := s.selectedPriority }] ∧
    (addTask s now).tasks.length = s.tasks.length + 1 ∧
    (∀ i : ℕ, i < s.tasks.length → (addTask s now).tasks[i]? = s.tasks[i]?) ∧
    (addTask s now).newTask = "" ∧
    (addTask s now).selectedPriority = ⟨3, by decide⟩ ∧
    priorityConfigLabel (addTask s now).selectedPriority = "Average Priority" := by
  have htasks : (addTask s now).tasks =
      s.tasks ++ [{ id := Nat.repr now, title := s.newTask, completed := false,
                    priority := s.selectedPriority }] := by
    simp [addTask, h]
  refine ⟨htasks, ?_, ?_, ?_, ?_, ?_⟩
  · rw [htasks]; simp
  · intro i hi
    rw [htasks, List.getElem?_append_left hi]
  · simp [addTask, h]
  · simp [addTask, h]
  · simp [addTask, h, priorityConfigLabel]

/-- Witness for C4: the spec's scenario of adding a fourth task. -/
theorem addTask_appends_witness :
    (addTask { initState with newTask := "Read", selectedPriority := ⟨4, by decide⟩ }
        1000).tasks =
      initialTasks ++ [{ id := "1000", title := "Read", completed := false,
                         priority := ⟨4, by decide⟩ }] ∧
    (addTask { initState with newTask := "Read", selectedPriority := ⟨4, by decide⟩ }
        1000).tasks.length = 4 ∧
    (addTask { initState with newTask := "Read", selectedPriority := ⟨4, by decide⟩ }
        1000).newTask = "" ∧
    (addTask { initState with newTask := "Read", selectedPriority := ⟨4, by decide⟩ }
        1000).selectedPriority = ⟨3, by decide⟩ := by
  have h := addTask_appends
    { initState with newTask := "Read", selectedPriority := ⟨4, by decide⟩ } 1000
    (by decide)
  exact ⟨h.1, h.2.1, h.2.2.2.1, h.2.2.2.2.1⟩

/-- C10: the appended task stores the raw untrimmed input as its title;
that stored title is non-empty and never whitespace-only (its trimmed
form is the non-empty trimmed input). -/
theorem addTask_title_raw (s : TasksState) (now : ℕ) (h : jsTrim s.newTask ≠ "") :
    ∃ t : Task, (addTask s now).tasks = s.tasks ++ [t] ∧
      t.title = s.newTask ∧ t.title ≠ "" ∧ jsTrim t.title ≠ "" := by
  refine ⟨{ id := Nat.repr now, title := s.newTask, completed := false,
            priority := s.selectedPriority }, ?_, rfl, ?_, h⟩
  · simp [addTask, h]
  · intro hempty
    apply h
    rw [show s.newTask = "" from hempty]
    rfl

/-- Witness for C10: a title with leading and trailing spaces is stored
verbatim. -/
theorem addTask_title_raw_witness :
    ∃ t : Task, (addTask { initState with newTask := " a " } 5).tasks =
      ({ initState with newTask := " a " } : TasksState).tasks ++ [t] ∧
      t.title = " a " ∧ t.title ≠ "" ∧ jsTrim t.title ≠ "" :=
  addTask_title_raw { initState with newTask := " a " } 5 (by decide)

/-! ### C6, C8, C9: `toggleTask` -/

theorem toggle_map_twice (l : List Task) (id : String) :
    ((l.map (fun task =>
        if task.id == id then { task with completed := !task.completed } else task)).map
      (fun task =>
        if task.id == id then { task with completed := !task.completed } else task)) = l := by
  induction l with
  | nil => rfl
  | cons t l ih =>
    simp only [List.map_cons, ih]
    by_cases ht : t.id == id
    · simp [ht]
    · simp [ht]

/-- C6: toggling the same id twice restores the state exactly — every
task's `completed` flag and every other field return to their original
values. -/
theorem toggleTask_involutive (s : TasksState) (id : String) :
    toggleTask (toggleTask s id) id = s := by
  simp only [toggleTask, toggle_map_twice]

/-- C8: toggling a present id flips only the `completed` field of the
matching task — its id, title and priority survive, every other task is
unchanged in all fields, list length and order are preserved, and the
rest of the state is untouched. -/
theorem toggleTask_frame (s : TasksState) (id : String) (i : ℕ) (t : Task)
    (hnd : (s.tasks.map Task.id).Nodup) (hi : s.tasks[i]? = some t) (hid : t.id = id) :
    (toggleTask s id).tasks.length = s.tasks.length ∧
    (toggleTask s id).tasks[i]? = some { t with completed := !t.completed } ∧
    (∀ j : ℕ, j ≠ i → (toggleTask s id).tasks[j]? = s.tasks[j]?) ∧
    (toggleTask s id).newTask = s.newTask ∧
    (toggleTask s id).selectedPriority = s.selectedPriority ∧
    (toggleTask s id).swipeAnimations = s.swipeAnimations := by
  obtain ⟨hilt, hit⟩ := List.getElem?_eq_some_iff.mp hi
  refine ⟨by simp [toggleTask], ?_, ?_, rfl, rfl, rfl⟩
  · simp only [toggleTask, List.getElem?_map, hi, Option.map_some']
    rw [if_pos (by simp [hid])]
  · intro j hj
    simp only [toggleTask, List.getElem?_map]
    rcases hju : s.tasks[j]? with _ | u
    · rfl
    · obtain ⟨hjlt, hju'⟩ := List.getElem?_eq_some_iff.mp hju
      have hj2 : j < (s.tasks.map Task.id).length := by simpa using hjlt
      have hi2 : i < (s.tasks.map Task.id).length := by simpa using hilt
      have hu : ¬ (u.id = id) := by
        intro hu
        apply hj
        have heq : (s.tasks.map Task.id)[j] = (s.tasks.map Task.id)[i] := by
          simp only [List.getElem_map]
          rw [hit, hju', hu, hid]
        exact (List.Nodup.getElem_inj_iff hnd).mp heq
      simp [hu]

/-- Witness for C8: the spec's scenario of toggling task id "2". -/
theorem toggleTask_frame_witness :
    (toggleTask initState "2").tasks.length = initState.tasks.length ∧
    (toggleTask initState "2").tasks[1]? =
      some { id := "2", title := "Read 10 pages", completed := false,
             priority := ⟨3, by decide⟩ } ∧
    (∀ j : ℕ, j ≠ 1 → (toggleTask initState "2").tasks[j]? = initState.tasks[j]?) ∧
    (toggleTask initState "2").newTask = initState.newTask ∧
    (toggleTask initState "2").selectedPriority = initState.selectedPriority ∧
    (toggleTask initState "2").swipeAnimations = initState.swipeAnimations :=
  toggleTask_frame initState "2" 1
    { id := "2", title := "Read 10 pages", completed := true, priority := ⟨3, by decide⟩ }
    (by decide) (by decide) rfl

/-- C9: toggling an id that no task carries is a silent no-op: the whole
state, in particular the task list, is unchanged. -/
theorem toggleTask_absent_noop (s : TasksState) (tid : String)
    (h : ∀ t ∈ s.tasks, t.id ≠ tid) : toggleTask s tid = s := by
  have hmap : s.tasks.map (fun task =>
      if task.id == tid then { task with completed := !task.completed } else task) =
      s.tasks := by
    rw [List.map_congr_left (g := id) ?_, List.map_id]
    intro t ht
    simp [h t ht]
  simp only [toggleTask, hmap]

/-- Witness for C9 at an id absent from the seed list. -/
theorem toggleTask_absent_noop_witness : toggleTask initState "7" = initState :=
  toggleTask_absent_noop initState "7" (by decide)

/-! ### C5: `deleteTask` -/

theorem filter_ne_length_of_mem (l : List Task) (tid : String)
    (hnd : (l.map Task.id).Nodup) (t : Task) (ht : t ∈ l) (htid : t.id = tid) :
    (l.filter (fun x => x.id != tid)).length + 1 = l.length := by
  induction l with
  | nil => cases ht
  | cons a l ih =>
    rw [List.map_cons, List.nodup_cons] at hnd
    by_cases ha : a.id = tid
    · rw [List.filter_cons_of_neg (by simp [ha]), List.length_cons]
      have hfl : (l.filter (fun x => x.id != tid)).length = l.length :=
        List.filter_length_eq_length.mpr (fun b hb => by
          simp only [bne_iff_ne, ne_eq]
          intro hb2
          exact hnd.1 (by rw [ha, ← hb2]; exact List.mem_map_of_mem Task.id hb))
      rw [hfl]
    · rw [List.filter_cons_of_pos (by simp [ha]), List.length_cons, List.length_cons]
      have ht' : t ∈ l := by
        cases ht with
        | head => exact absurd htid ha
        | tail _ h => exact h
      have := ih hnd.2 ht'
      omega

/-- C5: under the component's invariants (task ids are duplicate-free and
every swipe entry belongs to a listed task), `deleteTask` removes exactly
the matching task when the id is present — the remaining tasks keep their
order and values and the id's swipe state is discarded — and is a
complete no-op when the id is absent; the list length drops by one or is
unchanged, never going negative. -/
theorem deleteTask_spec (s : TasksState) (tid : String)
    (hnd : (s.tasks.map Task.id).Nodup)
    (hkeys : ∀ k ∈ s.swipeAnimations.map Prod.fst, k ∈ s.tasks.map Task.id) :
    ((∃ t, t ∈ s.tasks ∧ t.id = tid) →
      (deleteTask s tid).tasks.length + 1 = s.tasks.length ∧
      (deleteTask s tid).tasks.Sublist s.tasks ∧
      (∀ t ∈ s.tasks, t.id ≠ tid → t ∈ (deleteTask s tid).tasks) ∧
      (∀ t ∈ (deleteTask s tid).tasks, t.id ≠ tid) ∧
      lookupSwipe (deleteTask s tid).swipeAnimations tid = none) ∧
    ((∀ t ∈ s.tasks, t.id ≠ tid) → deleteTask s tid = s) ∧
    ((deleteTask s tid).tasks.length + 1 = s.tasks.length ∨
      (deleteTask s tid).tasks.length = s.tasks.length) := by
  refine ⟨?_, ?_, ?_⟩
  · rintro ⟨t, ht, htid⟩
    refine ⟨filter_ne_length_of_mem s.tasks tid hnd t ht htid,
      List.filter_sublist _, ?_, ?_, ?_⟩
    · intro u hu hune
      simp [deleteTask, List.mem_filter, hu, hune]
    · intro u hu
      have := (List.mem_filter.mp hu).2
      simpa using this
    · simp only [deleteTask, lookupSwipe]
      rw [List.find?_eq_none.mpr, Option.map_none']
      intro x hx
      have := (List.mem_filter.mp hx).2
      simpa using this
  · intro h
    have h1 : s.tasks.filter (fun x => x.id != tid) = s.tasks :=
      List.filter_eq_self.mpr (fun t ht => by simpa using h t ht)
    have h2 : s.swipeAnimations.filter (fun p => p.1 != tid) = s.swipeAnimations :=
      List.filter_eq_self.mpr (fun p hp => by
        have hptid : p.1 ∈ s.tasks.map Task.id :=
          hkeys p.1 (List.mem_map_of_mem Prod.fst hp)
        obtain ⟨u, hu, hup⟩ := List.mem_map.mp hptid
        have : p.1 ≠ tid := by rw [← hup]; exact h u hu
        simpa using this)
    simp only [deleteTask, h1, h2]
  · by_cases hex : ∃ t, t ∈ s.tasks ∧ t.id = tid
    · obtain ⟨t, ht, htid⟩ := hex
      exact Or.inl (filter_ne_length_of_mem s.tasks tid hnd t ht htid)
    · push_neg at hex
      refine Or.inr ?_
      simp only [deleteTask]
      rw [List.filter_eq_self.mpr (fun t ht => by simpa using hex t ht)]

/-- Witness for C5: deleting the present id "1" and the absent id "7"
from the seed state. -/
theorem deleteTask_spec_witness :
    (deleteTask initState "1").tasks.length + 1 = initState.tasks.length ∧
    lookupSwipe (deleteTask initState "1").swipeAnimations "1" = none ∧
    deleteTask initState "7" = initState := by
  have h1 := deleteTask_spec initState "1" (by decide) (by decide)
  have h7 := deleteTask_spec initState "7" (by decide) (by decide)
  have hp := h1.1 ⟨{ id := "1", title := "Finish workout", completed := false,
                     priority := ⟨1, by decide⟩ }, by decide, rfl⟩
  exact ⟨hp.1, hp.2.2.2.2, h7.2.1 (by decide)⟩

/-! ### C7: id uniqueness across reachable states

`addTask` generates ids with `Date.now().toString()`.  Two `addTask`
calls in the same millisecond receive the same timestamp and hence the
same id, so uniqueness is *not* unconditional; it holds exactly when the
generated id strings are pairwise distinct and avoid the seed ids (as
they are whenever the clock strictly increases between adds). -/

theorem toggleTask_map_ids (s : TasksState) (tid : String) :
    (toggleTask s tid).tasks.map Task.id = s.tasks.map Task.id := by
  simp only [toggleTask, List.map_map]
  apply List.map_congr_left
  intro t ht
  by_cases h : t.id = tid
  · simp [h]
  · simp [h]

theorem runOps_ids_nodup (ops : List Op) (s : TasksState)
    (hnd : (s.tasks.map Task.id).Nodup)
    (hpw : ((addTimes ops).map Nat.repr).Pairwise (· ≠ ·))
    (hfresh : ∀ n ∈ addTimes ops, Nat.repr n ∉ s.tasks.map Task.id) :
    ((runOps s ops).tasks.map Task.id).Nodup := by
  induction ops generalizing s with
  | nil => exact hnd
  | cons op rest ih =>
    have hstep : runOps s (op :: rest) = runOps (applyOp s op) rest := rfl
    rw [hstep]
    cases op with
    | setNewTask text => exact ih _ hnd hpw hfresh
    | handlePrioritySelect p => exact ih _ hnd hpw hfresh
    | toggle tid =>
      refine ih _ ?_ hpw ?_
      · rw [show (applyOp s (Op.toggle tid)) = toggleTask s tid from rfl,
          toggleTask_map_ids]
        exact hnd
      · intro n hn
        rw [show (applyOp s (Op.toggle tid)) = toggleTask s tid from rfl,
          toggleTask_map_ids]
        exact hfresh n hn
    | delete tid =>
      have hsub : List.Sublist ((deleteTask s tid).tasks.map Task.id)
          (s.tasks.map Task.id) :=
        List.Sublist.map Task.id (List.filter_sublist _)
      refine ih _ (hsub.nodup hnd) hpw ?_
      intro n hn hmem
      exact hfresh n hn (hsub.subset hmem)
    | swipe taskId tx =>
      have htasks : (handleSwipe s taskId tx).tasks = s.tasks := by
        simp only [handleSwipe, getSwipeAnimation]
        rcases lookupSwipe s.swipeAnimations taskId with _ | q <;> simp
      refine ih _ ?_ hpw ?_ <;> rw [show (applyOp s (Op.swipe taskId tx)) =
        handleSwipe s taskId tx from rfl, htasks]
      · exact hnd
      · exact hfresh
    | swipeEnd taskId tx vx =>
      have htasks : (handleSwipeEnd s taskId tx vx).tasks = s.tasks := by
        simp only [handleSwipeEnd, getSwipeAnimation]
        rcases lookupSwipe s.swipeAnimations taskId with _ | q <;> simp
      refine ih _ ?_ hpw ?_ <;> rw [show (applyOp s (Op.swipeEnd taskId tx vx)) =
        handleSwipeEnd s taskId tx vx from rfl, htasks]
      · exact hnd
      · exact hfresh
    | close taskId =>
      have htasks : (closeSwipe s taskId).tasks = s.tasks := by
        simp only [closeSwipe, getSwipeAnimation]
        rcases lookupSwipe s.swipeAnimations taskId with _ | q <;> simp
      refine ih _ ?_ hpw ?_ <;> rw [show (applyOp s (Op.close taskId)) =
        closeSwipe s taskId from rfl, htasks]
      · exact hnd
      · exact hfresh
    | add now =>
      have haddTimes : addTimes (Op.add now :: rest) = now :: addTimes rest := rfl
      rw [haddTimes, List.map_cons, List.pairwise_cons] at hpw
      have happ : applyOp s (Op.add now) = addTask s now := rfl
      by_cases hb : jsTrim s.newTask = ""
      · have hsame : addTask s now = s := by simp [addTask, hb]
        rw [happ, hsame]
        exact ih s hnd hpw.2 (fun n hn => hfresh n (by rw [haddTimes]; right; exact hn))
      · have hids : (addTask s now).tasks.map Task.id =
            s.tasks.map Task.id ++ [Nat.repr now] := by
          simp [addTask, hb]
        refine ih _ ?_ hpw.2 ?_
        · rw [happ, hids]
          refine List.Nodup.append hnd (List.nodup_singleton _) ?_
          intro x hx hx1
          rw [List.mem_singleton.mp hx1] at hx
          exact hfresh now (by rw [haddTimes]; left) hx
        · intro n hn
          rw [happ, hids]
          intro hmem
          rcases List.mem_append.mp hmem with hold | hnew
          · exact hfresh n (by rw [haddTimes]; right; exact hn) hold
          · exact hpw.1 (Nat.repr n) (List.mem_map_of_mem Nat.repr hn)
              (List.mem_singleton.mp hnew).symm

/-- C7 counterexample: the claim as stated is false — two `addTask`
calls carrying the same `Date.now()` millisecond timestamp (here `100`)
produce two tasks with the same id, so a reachable state violates id
uniqueness. -/
theorem runOps_duplicate_ids_counterexample :
    ¬ (((runOps initState
        [Op.setNewTask "a", Op.add 100, Op.setNewTask "b", Op.add 100]).tasks.map
          Task.id).Nodup) := by decide

/-- C7 amended: id uniqueness is an invariant of every state reachable
from the initial list by `addTask`, `toggleTask` and `deleteTask` (and
the input/swipe events), *provided* the id strings the `addTask` calls
generate — the decimal representations of their `Date.now()` timestamps —
are pairwise distinct and distinct from the seed ids "1", "2", "3"
(which holds whenever the millisecond clock strictly increases between
adds). -/
theorem reachable_ids_nodup (ops : List Op)
    (hpw : ((addTimes ops).map Nat.repr).Pairwise (· ≠ ·))
    (hfresh : ∀ n ∈ addTimes ops, Nat.repr n ∉ (["1", "2", "3"] : List String)) :
    ((runOps initState ops).tasks.map Task.id).Nodup := by
  refine runOps_ids_nodup ops initState (by decide) hpw ?_
  intro n hn
  have : initState.tasks.map Task.id = ["1", "2", "3"] := rfl
  rw [this]
  exact hfresh n hn

/-- Witness for C7 (amended) on a trace of two adds at distinct
timestamps. -/
theorem reachable_ids_nodup_witness :
    ((runOps initState
      [Op.setNewTask "a", Op.add 100, Op.setNewTask "b", Op.add 200]).tasks.map
        Task.id).Nodup :=
  reachable_ids_nodup
    [Op.setNewTask "a", Op.add 100, Op.setNewTask "b", Op.add 200]
    (by decide) (by decide)

end Seikatsu
